import Mathlib

/-!
Verification of the structured-concurrency tree library (package
`concurrency`, files `tree.go`, `functions.go`).

The embedding models the state that the library mutates: a cancellable
context (Go `context.WithCancelCause`) carrying a done-error and a cause,
the tree configuration (concurrency limit, jitter), and the effect of each
operation (`Go`, `Sub`, `Wait`, `Map`, `Schedule`, `Call`) on that state.
Goroutine interleavings are modelled by explicit completion orders and
event traces; every cause mutation in the source goes through the single
`CancelCtx.cancel` function, mirroring `context.CancelCauseFunc`.
-/

namespace Concurrency

/-- A Go error value as observed by this library: the sentinel errors
`context.Canceled` and `context.DeadlineExceeded`, or an ordinary error
identified by its message. -/
inductive GoError where
  | canceled
  | deadlineExceeded
  | msg (s : String)
deriving DecidableEq, Repr

/-- The value of `ctx.Err()` once a context is done: `context.Canceled` or
`context.DeadlineExceeded`. -/
inductive CtxErr where
  | canceled
  | deadlineExceeded
deriving DecidableEq, Repr

/-- View a context done-error as a plain Go error. -/
def CtxErr.toGoError : CtxErr → GoError
  | CtxErr.canceled => GoError.canceled
  | CtxErr.deadlineExceeded => GoError.deadlineExceeded

/-- State of a context created by `context.WithCancelCause`: `err` is what
`ctx.Err()` returns (`none` while the context is live) and `cause` is what
`context.Cause(ctx)` returns. Go sets the cause at the moment the context
is first cancelled, so `cause` is `some` exactly when `err` is. -/
structure CancelCtx where
  err : Option CtxErr
  cause : Option GoError
deriving DecidableEq, Repr

/-- Semantics of the `context.CancelCauseFunc` returned by
`context.WithCancelCause`: the first cancellation marks the context done
with `context.Canceled` and records the given cause (or `context.Canceled`
itself when the cause is nil); any cancellation of an already-done context
is a no-op. -/
def CancelCtx.cancel (c : CancelCtx) (cause : Option GoError) : CancelCtx :=
  match c.err with
  | some _ => c
  | none =>
    { err := some CtxErr.canceled
      cause := some (cause.getD GoError.canceled) }

/-- Deriving a child context from a parent (`context.WithCancelCause(ctx)`
in `New` and `Call`): at derivation time the child observes exactly the
done-error and cause of the parent; a live parent yields a live child. -/
def deriveCtx (parent : CancelCtx) : CancelCtx :=
  { err := parent.err, cause := parent.cause }

/-- Embedding of `Tree.Wait` (tree.go): after the wait group drains it
reads `g.ctx.Err()`; nil means no error; an error satisfying
`errors.Is(err, context.Canceled)` with a non-nil `context.Cause` yields
that cause; any other error (such as `context.DeadlineExceeded`) is
returned as-is. -/
def waitErr (c : CancelCtx) : Option GoError :=
  match c.err with
  | none => none
  | some ce =>
    if ce = CtxErr.canceled ∧ c.cause.isSome then c.cause
    else some ce.toGoError

/-- Configuration carried by a `Tree`: the optional semaphore capacity set
by `WithConcurrencyLimit` (nil means unlimited) and the jitter function set
by `WithJitter` (modelled as a duration in nanoseconds). -/
structure TreeCfg where
  concurrencyLimit : Option Nat
  jitter : Unit → Nat

/-- A functional option, Go type `Option func(*Tree)`; both options in the
source mutate only the configuration fields. -/
def TreeOption : Type := TreeCfg → TreeCfg

/-- Embedding of `NoJitter`: always a zero duration. -/
def NoJitter : Unit → Nat := fun _ => 0

/-- Embedding of `WithJitter`. -/
def WithJitter (fn : Unit → Nat) : TreeOption :=
  fun g => { g with jitter := fn }

/-- Embedding of `WithConcurrencyLimit`: a value of 0 clears the limit
(unlimited); otherwise a semaphore of weight `n` is installed. -/
def WithConcurrencyLimit (n : Nat) : TreeOption :=
  fun g =>
    if n = 0 then { g with concurrencyLimit := none }
    else { g with concurrencyLimit := some n }

/-- A `Tree`: its derived context, its configuration, and the option list
it was created with (kept so `Sub` can inherit it). -/
structure Tree where
  ctx : CancelCtx
  cfg : TreeCfg
  options : List TreeOption

/-- Embedding of `New`: derive a child context from the parent, start from
the zero configuration (no limit, `NoJitter`), and apply the options in
order. Returns the tree and the derived context. -/
def New (parent : CancelCtx) (options : List TreeOption) : Tree × CancelCtx :=
  let ctx := deriveCtx parent
  let cfg := options.foldl (fun g o => o g)
    { concurrencyLimit := none, jitter := NoJitter }
  ({ ctx := ctx, cfg := cfg, options := options }, ctx)

/-- How a task function terminates, as seen at the spawn boundary: a nil
return, a non-nil error return, a panic whose value is an error, or a panic
with a non-error value (carried as its formatted representation). -/
inductive TaskOutcome where
  | ok
  | fail (e : GoError)
  | panicErrVal (e : GoError)
  | panicOther (repr : String)
deriving DecidableEq, Repr

/-- Embedding of `Tree.recovery` applied to a recovered panic value: an
error panic value becomes the cancellation cause directly; any other value
is wrapped into the descriptive error produced by
`fmt.Errorf("worktree: panic: %v", r)`. -/
def recovery (c : CancelCtx) (t : TaskOutcome) : CancelCtx :=
  match t with
  | TaskOutcome.panicErrVal e => c.cancel (some e)
  | TaskOutcome.panicOther r =>
      c.cancel (some (GoError.msg ("worktree: panic: " ++ r)))
  | _ => c

/-- Embedding of `semaphore.Weighted.Acquire(g.ctx, 1)` at the point where
a slot is (or becomes) available: the acquire first checks the context and
returns `ctx.Err()` when it is done, otherwise it succeeds (`none`). With
no limiter configured there is no acquire step. -/
def acquire (limit : Option Nat) (c : CancelCtx) : Option GoError :=
  match limit with
  | none => none
  | some _ =>
    match c.err with
    | some ce => some ce.toGoError
    | none => none

/-- Embedding of the goroutine body of `Tree.Go` for one task, run to
completion against the current context state. Returns the updated context
and whether the task body `fn` was actually invoked. With a limiter, a
failed acquire records its error via `cancel` and returns without running
the body; otherwise the body runs, a non-nil error return cancels the tree
with that error, and a panic is routed through `recovery`. -/
def goStep (limit : Option Nat) (c : CancelCtx) (t : TaskOutcome) :
    CancelCtx × Bool :=
  match acquire limit c with
  | some e => (c.cancel (some e), false)
  | none =>
    match t with
    | TaskOutcome.ok => (c, true)
    | TaskOutcome.fail e => (c.cancel (some e), true)
    | TaskOutcome.panicErrVal e => (recovery c (TaskOutcome.panicErrVal e), true)
    | TaskOutcome.panicOther r => (recovery c (TaskOutcome.panicOther r), true)

/-- Run a sequence of spawned tasks to completion in the given completion
order, threading the context through `goStep`. -/
def runTasks (limit : Option Nat) (c : CancelCtx) (ts : List TaskOutcome) :
    CancelCtx :=
  ts.foldl (fun c t => (goStep limit c t).1) c

/-- The invoked-flags of a task sequence: for each task, whether its body
ran. -/
def runTasksRan (limit : Option Nat) (c : CancelCtx) (ts : List TaskOutcome) :
    List Bool :=
  match ts with
  | [] => []
  | t :: ts =>
    (goStep limit c t).2 :: runTasksRan limit (goStep limit c t).1 ts

/-- Embedding of the goroutine body of `Tree.Sub`: run the setup function,
cancel the parent with its error if any (remembering that in `cancelled`),
then always wait on the sub-tree and cancel the parent with the wait error
only when the setup did not already cancel. `setupErr` is the return value
of `fn` and `subWaitErr` the value of `sub.Wait()`. -/
def subStep (g : CancelCtx) (setupErr : Option GoError)
    (subWaitErr : Option GoError) : CancelCtx :=
  let cancelled := setupErr.isSome
  let g1 :=
    match setupErr with
    | some e => g.cancel (some e)
    | none => g
  match subWaitErr with
  | some e => if cancelled then g1 else g1.cancel (some e)
  | none => g1

/-- The spawn-boundary outcome of one `Map` task (functions.go): the task
returns the error of `fn` on failure and nil after writing its slot on
success. -/
def mapTaskOutcome (fn : U → Except GoError T) (v : U) : TaskOutcome :=
  match fn v with
  | Except.error e => TaskOutcome.fail e
  | Except.ok _ => TaskOutcome.ok

/-- One completed `Map` task, index `i` in the completion order: the
context advances through `goStep`; when the body actually ran and `fn`
succeeded, the task writes its result into slot `i` of the output list. -/
def mapStep [Inhabited T] (limit : Option Nat) (fn : U → Except GoError T)
    (values : List U) (st : CancelCtx × List T) (i : Nat) :
    CancelCtx × List T :=
  match values[i]? with
  | none => st
  | some v =>
    let r := goStep limit st.1 (mapTaskOutcome fn v)
    let out :=
      if r.2 then
        match fn v with
        | Except.ok t => st.2.set i t
        | Except.error _ => st.2
      else st.2
    (r.1, out)

/-- Embedding of `Map` (functions.go): the output starts as a pre-sized
list of zero values, one task is spawned per element, the tasks complete in
the order given by `order`, and the result is the output list together with
`tree.Wait()`. -/
def Map [Inhabited T] (limit : Option Nat) (fn : U → Except GoError T)
    (values : List U) (c : CancelCtx) (order : List Nat) :
    List T × Option GoError :=
  let st := order.foldl (mapStep limit fn values)
    (c, List.replicate values.length default)
  (st.2, waitErr st.1)

/-- The first error among the `Map` tasks in completion order; this is the
cause the first failing task records. -/
def firstMapErr (fn : U → Except GoError T) (values : List U) :
    List Nat → Option GoError
  | [] => none
  | i :: rest =>
    match values[i]? with
    | none => firstMapErr fn values rest
    | some v =>
      match fn v with
      | Except.error e => some e
      | Except.ok _ => firstMapErr fn values rest

/-- One iteration of the `Schedule` loop as observed by its `select`: either
the context fired first (`ctxDone`, carrying the value of `ctx.Err()`), or
the timer fired and `fn` ran, returning the next delay and an optional
error. -/
inductive SchedEvent where
  | ctxDone (ce : CtxErr)
  | tick (next : Nat) (err : Option GoError)
deriving DecidableEq, Repr

/-- Embedding of the loop body spawned by `Schedule` (functions.go), run
over a finite trace of iteration events with the current delay threaded
through. `Sum.inl e` means the loop task returned error `e`; `Sum.inr d`
means the trace was exhausted with the loop still running and current delay
`d`. On `ctxDone` the loop returns `ctx.Err()`; on a tick it invokes `fn`,
returns its error if non-nil, and otherwise continues with the new delay. -/
def scheduleLoop : Nat → List SchedEvent → GoError ⊕ Nat
  | d, [] => Sum.inr d
  | _, SchedEvent.ctxDone ce :: _ => Sum.inl ce.toGoError
  | _, SchedEvent.tick next e :: evs =>
    match e with
    | some err => Sum.inl err
    | none => scheduleLoop next evs

/-- Embedding of `Schedule`: the single spawned loop task starts with a
zero delay. -/
def Schedule (evs : List SchedEvent) : GoError ⊕ Nat :=
  scheduleLoop 0 evs

/-- The delay waited at each iteration of the `Schedule` loop across a
trace: the current delay is waited on (or waited towards, when the context
fires first), then replaced by the value `fn` returns. -/
def scheduleDelays : Nat → List SchedEvent → List Nat
  | _, [] => []
  | d, SchedEvent.ctxDone _ :: _ => [d]
  | d, SchedEvent.tick next e :: evs =>
    match e with
    | some _ => [d]
    | none => d :: scheduleDelays next evs

/-- An event on which the `Schedule` loop exits: the context firing, or a
step returning a non-nil error. -/
def isExitEvent : SchedEvent → Bool
  | SchedEvent.ctxDone _ => true
  | SchedEvent.tick _ e => e.isSome

/-- The error the `Schedule` loop is expected to exit with: that of the
first exit event of the trace, if any. -/
def firstExit : List SchedEvent → Option GoError
  | [] => none
  | SchedEvent.ctxDone ce :: _ => some ce.toGoError
  | SchedEvent.tick _ (some e) :: _ => some e
  | SchedEvent.tick _ none :: evs => firstExit evs

/-- Embedding of `Call` (functions.go): derive a cancellable context from
the caller context, run `fn` concurrently, and cancel the derived context
with the result of `fn` as the cause when it completes. `res` is the return
value of `fn` (`none` for a nil error). -/
def Call (parent : CancelCtx) (res : Option GoError) : CancelCtx :=
  (deriveCtx parent).cancel res

/-- Cancelling an already-done context is a no-op. -/
theorem cancel_of_done (c : CancelCtx) (x : Option GoError)
    (h : c.err.isSome) : c.cancel x = c := by
  unfold CancelCtx.cancel
  match hc : c.err with
  | some ce => rfl
  | none => rw [hc] at h; simp at h

/-- A freshly cancelled context is done with `context.Canceled` and carries
the given cause, defaulted to `context.Canceled`. -/
theorem cancel_of_live (c : CancelCtx) (x : Option GoError)
    (h : c.err = none) :
    c.cancel x =
      { err := some CtxErr.canceled
        cause := some (x.getD GoError.canceled) } := by
  unfold CancelCtx.cancel
  rw [h]

/-- A live context resolves `Wait` with no error. -/
theorem waitErr_of_live (c : CancelCtx) (h : c.err = none) :
    waitErr c = none := by
  unfold waitErr
  rw [h]

/-- Resolution of `Wait` right after the first cancellation of a live
context: the recorded cause (or the generic cancelled condition) is
returned. -/
theorem waitErr_cancel_of_live (c : CancelCtx) (x : Option GoError)
    (h : c.err = none) :
    waitErr (c.cancel x) = some (x.getD GoError.canceled) := by
  rw [cancel_of_live c x h]
  unfold waitErr
  simp

/-- A single spawn step never changes a done context: with a limiter the
acquire fails and the attendant cancel is a no-op; without one the body
runs but every cancel it may perform is a no-op. -/
theorem goStep_fst_of_done (limit : Option Nat) (c : CancelCtx)
    (t : TaskOutcome) (h : c.err.isSome) : (goStep limit c t).1 = c := by
  unfold goStep acquire
  match hl : limit with
  | some k =>
    match hc : c.err with
    | some ce => simp [cancel_of_done c _ h]
    | none => rw [hc] at h; simp at h
  | none =>
    match t with
    | TaskOutcome.ok => rfl
    | TaskOutcome.fail e => simp [cancel_of_done c _ h]
    | TaskOutcome.panicErrVal e => simp [recovery, cancel_of_done c _ h]
    | TaskOutcome.panicOther r => simp [recovery, cancel_of_done c _ h]

/-- Running any task sequence never changes a done context. -/
theorem runTasks_of_done (limit : Option Nat) (c : CancelCtx)
    (ts : List TaskOutcome) (h : c.err.isSome) :
    runTasks limit c ts = c := by
  induction ts with
  | nil => rfl
  | cons t ts ih =>
    unfold runTasks
    simp only [List.foldl_cons]
    rw [goStep_fst_of_done limit c t h]
    exact ih

/-- Folding any further cancellations over a done context changes
nothing. -/
theorem foldl_cancel_of_done (c : CancelCtx)
    (triggers : List (Option GoError)) (h : c.err.isSome) :
    triggers.foldl CancelCtx.cancel c = c := by
  induction triggers with
  | nil => rfl
  | cons x xs ih =>
    simp only [List.foldl_cons]
    rw [cancel_of_done c x h]
    exact ih

/-- The sub-tree goroutine never changes a done parent context. -/
theorem subStep_of_done (g : CancelCtx) (se sw : Option GoError)
    (h : g.err.isSome) : subStep g se sw = g := by
  unfold subStep
  match se with
  | some e =>
    simp only [Option.isSome_some]
    rw [cancel_of_done g _ h]
    match sw with
    | some w => simp
    | none => rfl
  | none =>
    simp only [Option.isSome_none]
    match sw with
    | some w => simp [cancel_of_done g _ h]
    | none => rfl

/-- With no limiter configured, the task body always runs. -/
theorem goStep_snd_of_no_limit (c : CancelCtx) (t : TaskOutcome) :
    (goStep none c t).2 = true := by
  unfold goStep acquire
  match t with
  | TaskOutcome.ok => rfl
  | TaskOutcome.fail e => rfl
  | TaskOutcome.panicErrVal e => rfl
  | TaskOutcome.panicOther r => rfl

/-- Claim C1: on a scope whose signal starts untriggered, `Wait` returns
nil when the signal was never triggered; returns the generic cancelled
condition when the signal was triggered by a cancellation carrying no
cause; returns exactly the recorded cause whenever a concrete cause was
recorded, never a generic cancelled wrapper in its place; and a scope whose
single task fails with an error returns that error unmodified. -/
theorem wait_first_concrete_cause (c : CancelCtx) (e : GoError)
    (h : c.err = none) :
    waitErr c = none ∧
    waitErr (c.cancel none) = some GoError.canceled ∧
    waitErr (c.cancel (some e)) = some e ∧
    (e ≠ GoError.canceled → waitErr (c.cancel (some e)) ≠ some GoError.canceled) ∧
    waitErr (runTasks none c [TaskOutcome.fail e]) = some e := by
  refine ⟨waitErr_of_live c h, waitErr_cancel_of_live c none h, ?_, ?_, ?_⟩
  · rw [waitErr_cancel_of_live c (some e) h]; rfl
  · intro hne
    rw [waitErr_cancel_of_live c (some e) h]
    simp [hne]
  · show waitErr ((goStep none c (TaskOutcome.fail e)).1) = some e
    unfold goStep acquire
    simpa using waitErr_cancel_of_live c (some e) h

/-- Witness for C1 at the concrete scope of the first-error test: a fresh
untriggered signal and a task failing with the error "error". -/
theorem wait_first_concrete_cause_witness :
    waitErr { err := none, cause := none } = none ∧
    waitErr (CancelCtx.cancel { err := none, cause := none } none) =
      some GoError.canceled ∧
    waitErr (CancelCtx.cancel { err := none, cause := none }
      (some (GoError.msg "error"))) = some (GoError.msg "error") ∧
    (GoError.msg "error" ≠ GoError.canceled →
      waitErr (CancelCtx.cancel { err := none, cause := none }
        (some (GoError.msg "error"))) ≠ some GoError.canceled) ∧
    waitErr (runTasks none { err := none, cause := none }
      [TaskOutcome.fail (GoError.msg "error")]) = some (GoError.msg "error") :=
  wait_first_concrete_cause { err := none, cause := none }
    (GoError.msg "error") rfl

/-- Claim C2: once a live signal is triggered with a cause, that cause is
permanent. Any later sequence of direct cancellations, any later sequence
of completing tasks (failures, panics, failed admissions), and any later
sub-tree completion leave the state untouched, so the first cause is the
one `Wait` eventually returns. -/
theorem first_cause_wins (c : CancelCtx) (x : Option GoError)
    (triggers : List (Option GoError)) (limit : Option Nat)
    (ts : List TaskOutcome) (se sw : Option GoError) (h : c.err = none) :
    triggers.foldl CancelCtx.cancel (c.cancel x) = c.cancel x ∧
    runTasks limit (c.cancel x) ts = c.cancel x ∧
    subStep (c.cancel x) se sw = c.cancel x ∧
    (c.cancel x).cause = some (x.getD GoError.canceled) ∧
    waitErr (c.cancel x) = some (x.getD GoError.canceled) := by
  have hdone : (c.cancel x).err.isSome := by
    rw [cancel_of_live c x h]
    rfl
  refine ⟨foldl_cancel_of_done _ triggers hdone,
    runTasks_of_done limit _ ts hdone,
    subStep_of_done _ se sw hdone, ?_, waitErr_cancel_of_live c x h⟩
  rw [cancel_of_live c x h]

/-- Witness for C2: a signal first triggered with cause "first", then hit
by two more cancellations, a failing and a panicking task, and a failing
sub-tree, still reports cause "first". -/
theorem first_cause_wins_witness :
    List.foldl CancelCtx.cancel
        (CancelCtx.cancel { err := none, cause := none }
          (some (GoError.msg "first")))
        [some (GoError.msg "second"), none] =
      CancelCtx.cancel { err := none, cause := none }
        (some (GoError.msg "first")) ∧
    runTasks (some 2)
        (CancelCtx.cancel { err := none, cause := none }
          (some (GoError.msg "first")))
        [TaskOutcome.fail (GoError.msg "late"), TaskOutcome.panicOther "boom"] =
      CancelCtx.cancel { err := none, cause := none }
        (some (GoError.msg "first")) ∧
    subStep
        (CancelCtx.cancel { err := none, cause := none }
          (some (GoError.msg "first")))
        (some (GoError.msg "setup")) (some (GoError.msg "subwait")) =
      CancelCtx.cancel { err := none, cause := none }
        (some (GoError.msg "first")) ∧
    (CancelCtx.cancel { err := none, cause := none }
        (some (GoError.msg "first"))).cause = some (GoError.msg "first") ∧
    waitErr (CancelCtx.cancel { err := none, cause := none }
        (some (GoError.msg "first"))) = some (GoError.msg "first") :=
  first_cause_wins { err := none, cause := none } (some (GoError.msg "first"))
    [some (GoError.msg "second"), none] (some 2)
    [TaskOutcome.fail (GoError.msg "late"), TaskOutcome.panicOther "boom"]
    (some (GoError.msg "setup")) (some (GoError.msg "subwait")) rfl

/-- Claim C3: a panic in a task is intercepted at the spawn boundary: on a
live scope, a panic whose value is an error records that error itself as
the cause, and a panic with any other value records the descriptive
"worktree: panic: ..." error wrapping its representation; both trigger the
signal, and the boundary yields a state transition rather than an escaping
panic. -/
theorem panic_recovery_converts (limit : Option Nat) (c : CancelCtx)
    (e : GoError) (s : String) (h : c.err = none) :
    (goStep limit c (TaskOutcome.panicErrVal e)).1.cause = some e ∧
    (goStep limit c (TaskOutcome.panicOther s)).1.cause =
      some (GoError.msg ("worktree: panic: " ++ s)) ∧
    (goStep limit c (TaskOutcome.panicErrVal e)).1.err =
      some CtxErr.canceled ∧
    (goStep limit c (TaskOutcome.panicOther s)).1.err =
      some CtxErr.canceled := by
  have h1 : (goStep limit c (TaskOutcome.panicErrVal e)).1 =
      c.cancel (some e) := by
    cases limit with
    | none => simp [goStep, acquire, recovery]
    | some k => simp [goStep, acquire, recovery, h]
  have h2 : (goStep limit c (TaskOutcome.panicOther s)).1 =
      c.cancel (some (GoError.msg ("worktree: panic: " ++ s))) := by
    cases limit with
    | none => simp [goStep, acquire, recovery]
    | some k => simp [goStep, acquire, recovery, h]
  rw [h1, h2, cancel_of_live c _ h, cancel_of_live c _ h]
  exact ⟨rfl, rfl, rfl, rfl⟩

/-- Witness for C3: on a fresh scope, a panic with error value "failure"
and a panic with the non-error value "detail" record the expected causes. -/
theorem panic_recovery_converts_witness :
    (goStep none { err := none, cause := none }
      (TaskOutcome.panicErrVal (GoError.msg "failure"))).1.cause =
        some (GoError.msg "failure") ∧
    (goStep none { err := none, cause := none }
      (TaskOutcome.panicOther "detail")).1.cause =
        some (GoError.msg ("worktree: panic: " ++ "detail")) ∧
    (goStep none { err := none, cause := none }
      (TaskOutcome.panicErrVal (GoError.msg "failure"))).1.err =
        some CtxErr.canceled ∧
    (goStep none { err := none, cause := none }
      (TaskOutcome.panicOther "detail")).1.err = some CtxErr.canceled :=
  panic_recovery_converts none { err := none, cause := none }
    (GoError.msg "failure") "detail" rfl

/-- Claim C4: on a live parent, a failing sub-tree setup function records
its error as the parent cause no matter what the subsequent sub-tree wait
returns; the sub-tree wait error becomes the cause only when the setup
succeeded; a clean setup and a clean wait leave the parent untouched; and
when both fail, the final state is exactly one cancellation with the setup
error, so the two errors are never both surfaced. -/
theorem sub_setup_error_precedence (g : CancelCtx) (e w : GoError)
    (h : g.err = none) :
    (∀ sw : Option GoError, (subStep g (some e) sw).cause = some e) ∧
    (subStep g none (some w)).cause = some w ∧
    subStep g none none = g ∧
    subStep g (some e) (some w) = g.cancel (some e) := by
  have hc : ∀ y : GoError, (g.cancel (some y)).cause = some y := by
    intro y
    rw [cancel_of_live g (some y) h]
    rfl
  have hdone : (g.cancel (some e)).err.isSome := by
    rw [cancel_of_live g (some e) h]
    rfl
  refine ⟨?_, ?_, rfl, ?_⟩
  · intro sw
    unfold subStep
    match sw with
    | some w2 => simpa using hc e
    | none => simpa using hc e
  · unfold subStep
    simpa using hc w
  · unfold subStep
    simp

/-- Witness for C4 at a fresh parent with setup error "setup" and sub-tree
wait error "subwait". -/
theorem sub_setup_error_precedence_witness :
    (∀ sw : Option GoError,
      (subStep { err := none, cause := none }
        (some (GoError.msg "setup")) sw).cause = some (GoError.msg "setup")) ∧
    (subStep { err := none, cause := none } none
      (some (GoError.msg "subwait"))).cause = some (GoError.msg "subwait") ∧
    subStep { err := none, cause := none } none none =
      { err := none, cause := none } ∧
    subStep { err := none, cause := none } (some (GoError.msg "setup"))
        (some (GoError.msg "subwait")) =
      CancelCtx.cancel { err := none, cause := none }
        (some (GoError.msg "setup")) :=
  sub_setup_error_precedence { err := none, cause := none }
    (GoError.msg "setup") (GoError.msg "subwait") rfl

/-- With a limiter configured, a spawn against a done context does not run
the task body. -/
theorem goStep_snd_of_done_limited (k : Nat) (c : CancelCtx)
    (t : TaskOutcome) (h : c.err.isSome) : (goStep (some k) c t).2 = false := by
  unfold goStep acquire
  match hc : c.err with
  | some ce => simp
  | none => rw [hc] at h; simp at h

/-- With a limiter configured, no task spawned against a done context ever
runs its body. -/
theorem runTasksRan_of_done_limited (k : Nat) (c : CancelCtx)
    (ts : List TaskOutcome) (h : c.err.isSome) :
    ∀ b ∈ runTasksRan (some k) c ts, b = false := by
  induction ts generalizing c with
  | nil => intro b hb; simp [runTasksRan] at hb
  | cons t ts ih =>
    intro b hb
    unfold runTasksRan at hb
    rcases List.mem_cons.mp hb with hb | hb
    · rw [hb, goStep_snd_of_done_limited k c t h]
    · have hst := goStep_fst_of_done (some k) c t h
      rw [hst] at hb
      exact ih c h b hb

/-- Counterexample to C5 as stated: on a tree created from an
already-cancelled parent signal with no admission limiter configured (the
default), the body of a spawned task still runs — `Tree.Go` performs no
admission check without a limiter and invokes the function with the
already-done context. -/
theorem expired_parent_body_still_runs :
    (goStep
      (New { err := some CtxErr.canceled, cause := some GoError.canceled }
        []).1.cfg.concurrencyLimit
      (New { err := some CtxErr.canceled, cause := some GoError.canceled }
        []).2
      TaskOutcome.ok).2 = true := rfl

/-- Claim C5 as amended: a tree created from an already-expired or
already-cancelled parent signal resolves its very next `Wait` with the
expiry as its cause, whatever tasks were spawned: the recorded cause for a
cancellation, the deadline error for a deadline expiry. When an admission
limiter is configured, no spawned task ever runs its body; without a
limiter the body does run (with the already-triggered signal), leaving the
resolution unchanged. -/
theorem expired_parent_resolution (p : CancelCtx) (pe : CtxErr)
    (opts : List TreeOption) (ts : List TaskOutcome)
    (h : p.err = some pe) :
    waitErr (runTasks (New p opts).1.cfg.concurrencyLimit (New p opts).2 ts) =
      waitErr p ∧
    (pe = CtxErr.canceled → p.cause.isSome →
      waitErr (runTasks (New p opts).1.cfg.concurrencyLimit (New p opts).2 ts) =
        p.cause) ∧
    (pe = CtxErr.deadlineExceeded →
      waitErr (runTasks (New p opts).1.cfg.concurrencyLimit (New p opts).2 ts) =
        some GoError.deadlineExceeded) ∧
    (∀ k, (New p opts).1.cfg.concurrencyLimit = some k →
      ∀ b ∈ runTasksRan (some k) (New p opts).2 ts, b = false) := by
  have hctx : (New p opts).2 = p := rfl
  have hdone : p.err.isSome := by rw [h]; rfl
  have hrun : runTasks (New p opts).1.cfg.concurrencyLimit (New p opts).2 ts
      = p := by
    rw [hctx]
    exact runTasks_of_done _ p ts hdone
  refine ⟨by rw [hrun], ?_, ?_, ?_⟩
  · intro hpe hcause
    rw [hrun]
    unfold waitErr
    rw [h, hpe]
    simp [hcause]
  · intro hpe
    rw [hrun]
    unfold waitErr
    rw [h, hpe]
    simp [CtxErr.toGoError]
  · intro k hk
    rw [hctx]
    exact runTasksRan_of_done_limited k p ts hdone

/-- Witness for the amended C5: a parent cancelled with cause "expired", a
tree created from it with a limit of 1, and one spawned task: the wait
resolves with "expired" and the task body never runs. -/
theorem expired_parent_resolution_witness :
    waitErr (runTasks
      (New { err := some CtxErr.canceled, cause := some (GoError.msg "expired") }
        [WithConcurrencyLimit 1]).1.cfg.concurrencyLimit
      (New { err := some CtxErr.canceled, cause := some (GoError.msg "expired") }
        [WithConcurrencyLimit 1]).2 [TaskOutcome.ok]) =
      waitErr { err := some CtxErr.canceled, cause := some (GoError.msg "expired") } ∧
    (CtxErr.canceled = CtxErr.canceled →
      (Option.isSome (some (GoError.msg "expired")) : Prop) →
      waitErr (runTasks
        (New { err := some CtxErr.canceled, cause := some (GoError.msg "expired") }
          [WithConcurrencyLimit 1]).1.cfg.concurrencyLimit
        (New { err := some CtxErr.canceled, cause := some (GoError.msg "expired") }
          [WithConcurrencyLimit 1]).2 [TaskOutcome.ok]) =
        some (GoError.msg "expired")) ∧
    (CtxErr.canceled = CtxErr.deadlineExceeded →
      waitErr (runTasks
        (New { err := some CtxErr.canceled, cause := some (GoError.msg "expired") }
          [WithConcurrencyLimit 1]).1.cfg.concurrencyLimit
        (New { err := some CtxErr.canceled, cause := some (GoError.msg "expired") }
          [WithConcurrencyLimit 1]).2 [TaskOutcome.ok]) =
        some GoError.deadlineExceeded) ∧
    (∀ k, (New { err := some CtxErr.canceled, cause := some (GoError.msg "expired") }
        [WithConcurrencyLimit 1]).1.cfg.concurrencyLimit = some k →
      ∀ b ∈ runTasksRan (some k)
        (New { err := some CtxErr.canceled, cause := some (GoError.msg "expired") }
          [WithConcurrencyLimit 1]).2 [TaskOutcome.ok], b = false) :=
  expired_parent_resolution
    { err := some CtxErr.canceled, cause := some (GoError.msg "expired") }
    CtxErr.canceled [WithConcurrencyLimit 1] [TaskOutcome.ok] rfl

/-- Counterexample to C7 as stated: on a tree with a limiter whose signal
was triggered with the concrete cause "X", a subsequent spawn fails its
acquire with the cancellation error `context.Canceled`, but that error is
not recorded as the scope cause — the cause remains "X", because the
cancel performed by `Tree.Go` on an already-done context is a no-op. -/
theorem acquire_error_not_recorded :
    acquire (some 1)
      (CancelCtx.cancel { err := none, cause := none }
        (some (GoError.msg "X"))) = some GoError.canceled ∧
    (goStep (some 1)
      (CancelCtx.cancel { err := none, cause := none }
        (some (GoError.msg "X"))) TaskOutcome.ok).2 = false ∧
    (goStep (some 1)
      (CancelCtx.cancel { err := none, cause := none }
        (some (GoError.msg "X"))) TaskOutcome.ok).1.cause =
      some (GoError.msg "X") ∧
    some (GoError.msg "X") ≠ some GoError.canceled := by decide

/-- Claim C7 as amended: on a tree with an admission limiter whose signal
is already triggered, a spawned task fails its slot acquisition with the
signal's error, the cancel invoked with that error leaves the already
recorded first cause (and the whole signal state) unchanged, and the task
body is never invoked. -/
theorem limited_admission_on_triggered_signal (c : CancelCtx) (ce : CtxErr)
    (k : Nat) (t : TaskOutcome) (h : c.err = some ce) :
    acquire (some k) c = some ce.toGoError ∧
    (goStep (some k) c t).2 = false ∧
    (goStep (some k) c t).1 = c ∧
    (goStep (some k) c t).1.cause = c.cause := by
  have hdone : c.err.isSome := by rw [h]; rfl
  have hfst := goStep_fst_of_done (some k) c t hdone
  refine ⟨?_, goStep_snd_of_done_limited k c t hdone, hfst, by rw [hfst]⟩
  unfold acquire
  rw [h]

/-- Witness for the amended C7: signal triggered with cause "X", limit 1,
one spawned task. -/
theorem limited_admission_on_triggered_signal_witness :
    acquire (some 1)
      (CancelCtx.cancel { err := none, cause := none }
        (some (GoError.msg "X"))) = some CtxErr.canceled.toGoError ∧
    (goStep (some 1)
      (CancelCtx.cancel { err := none, cause := none }
        (some (GoError.msg "X"))) (TaskOutcome.fail (GoError.msg "Y"))).2 = false ∧
    (goStep (some 1)
      (CancelCtx.cancel { err := none, cause := none }
        (some (GoError.msg "X"))) (TaskOutcome.fail (GoError.msg "Y"))).1 =
      CancelCtx.cancel { err := none, cause := none }
        (some (GoError.msg "X")) ∧
    (goStep (some 1)
      (CancelCtx.cancel { err := none, cause := none }
        (some (GoError.msg "X"))) (TaskOutcome.fail (GoError.msg "Y"))).1.cause =
      (CancelCtx.cancel { err := none, cause := none }
        (some (GoError.msg "X"))).cause :=
  limited_admission_on_triggered_signal
    (CancelCtx.cancel { err := none, cause := none } (some (GoError.msg "X")))
    CtxErr.canceled 1 (TaskOutcome.fail (GoError.msg "Y")) rfl

/-- Claim C8: options are applied in order by the constructor, a later
option overriding an earlier one (a second concurrency limit supersedes the
first regardless of its value); a limit of 0 means unlimited admission; a
tree built with no options has no limit (unlimited by default); and the
default jitter policy returns a zero delay. -/
theorem options_applied_in_order (p : CancelCtx) (opts : List TreeOption)
    (o : TreeOption) (g : TreeCfg) (a b : Nat) :
    (New p (opts ++ [o])).1.cfg = o (New p opts).1.cfg ∧
    (WithConcurrencyLimit b (WithConcurrencyLimit a g)).concurrencyLimit =
      (WithConcurrencyLimit b g).concurrencyLimit ∧
    (WithConcurrencyLimit 0 g).concurrencyLimit = none ∧
    (New p []).1.cfg.concurrencyLimit = none ∧
    (New p []).1.cfg.jitter () = 0 := by
  refine ⟨?_, ?_, rfl, rfl, rfl⟩
  · simp [New, List.foldl_append]
  · unfold WithConcurrencyLimit
    by_cases hb : b = 0 <;> simp [hb]

/-- Claim C10: the context returned by `Call` is triggered as soon as the
function completes, with the function's error as cause when it fails; but
on a nil (successful) result the recorded cause is the generic
`context.Canceled`, not nil and not a distinct success marker, and the
resulting state is identical to a plain no-cause cancellation of the
derived context. -/
theorem call_nil_result_generic_cause (c : CancelCtx) (res : Option GoError)
    (h : c.err = none) :
    (Call c res).err = some CtxErr.canceled ∧
    (Call c res).cause = some (res.getD GoError.canceled) ∧
    (Call c none).cause = some GoError.canceled ∧
    Call c none = (deriveCtx c).cancel none := by
  have hd : deriveCtx c = c := rfl
  unfold Call
  rw [hd, cancel_of_live c res h, cancel_of_live c none h]
  exact ⟨rfl, rfl, rfl, rfl⟩

/-- One completed `Map` task leaves the output length unchanged. -/
theorem mapStep_out_length {U T : Type} [Inhabited T] (limit : Option Nat)
    (fn : U → Except GoError T) (values : List U) (st : CancelCtx × List T)
    (i : Nat) : ((mapStep limit fn values st i).2).length = st.2.length := by
  unfold mapStep
  cases hv : values[i]? with
  | none => rfl
  | some v =>
    simp only []
    cases hr : (goStep limit st.1 (mapTaskOutcome fn v)).2
    · simp [hr]
    · cases hf : fn v <;> simp [hr, hf, List.length_set]

/-- One completed `Map` task never touches another slot of the output. -/
theorem mapStep_out_slot_ne {U T : Type} [Inhabited T] (limit : Option Nat)
    (fn : U → Except GoError T) (values : List U) (st : CancelCtx × List T)
    (i j : Nat) (h : i ≠ j) :
    ((mapStep limit fn values st i).2)[j]? = st.2[j]? := by
  unfold mapStep
  cases hv : values[i]? with
  | none => rfl
  | some v =>
    simp only []
    cases hr : (goStep limit st.1 (mapTaskOutcome fn v)).2
    · simp [hr]
    · cases hf : fn v <;> simp [hr, hf, List.getElem?_set_ne h]

/-- A run of `Map` tasks whose completion order avoids slot `j` leaves that
slot of the output untouched. -/
theorem mapFold_out_slot_notmem {U T : Type} [Inhabited T] (limit : Option Nat)
    (fn : U → Except GoError T) (values : List U) (order : List Nat)
    (st : CancelCtx × List T) (j : Nat) (h : j ∉ order) :
    ((order.foldl (mapStep limit fn values) st).2)[j]? = st.2[j]? := by
  induction order generalizing st with
  | nil => rfl
  | cons i rest ih =>
    have hij : i ≠ j := fun he => h (he ▸ List.mem_cons_self i rest)
    have hj : j ∉ rest := fun hm => h (List.mem_cons_of_mem i hm)
    simp only [List.foldl_cons]
    rw [ih _ hj, mapStep_out_slot_ne limit fn values st i j hij]

/-- A run of `Map` tasks preserves the output length. -/
theorem mapFold_out_length {U T : Type} [Inhabited T] (limit : Option Nat)
    (fn : U → Except GoError T) (values : List U) (order : List Nat)
    (st : CancelCtx × List T) :
    ((order.foldl (mapStep limit fn values) st).2).length = st.2.length := by
  induction order generalizing st with
  | nil => rfl
  | cons i rest ih =>
    simp only [List.foldl_cons]
    rw [ih, mapStep_out_length]

/-- A `Map` task whose element maps successfully writes exactly its own
slot and leaves the context unchanged (no limiter configured). -/
theorem mapStep_none_ok {U T : Type} [Inhabited T]
    (fn : U → Except GoError T) (values : List U) (st : CancelCtx × List T)
    (i : Nat) (v : U) (t : T) (hv : values[i]? = some v)
    (hf : fn v = Except.ok t) :
    mapStep none fn values st i = (st.1, st.2.set i t) := by
  unfold mapStep
  rw [hv]
  simp only [mapTaskOutcome, hf]
  rfl

/-- A `Map` task whose element maps to an error cancels the tree with that
error and leaves the output unchanged (no limiter configured). -/
theorem mapStep_none_err {U T : Type} [Inhabited T]
    (fn : U → Except GoError T) (values : List U) (st : CancelCtx × List T)
    (i : Nat) (v : U) (e : GoError) (hv : values[i]? = some v)
    (hf : fn v = Except.error e) :
    mapStep none fn values st i = (st.1.cancel (some e), st.2) := by
  unfold mapStep
  rw [hv]
  simp only [mapTaskOutcome, hf]
  rfl

/-- Once the tree context is done, the remaining `Map` tasks leave it
unchanged (no limiter configured). -/
theorem mapFold_fst_of_done {U T : Type} [Inhabited T]
    (fn : U → Except GoError T) (values : List U) (order : List Nat)
    (st : CancelCtx × List T) (h : st.1.err.isSome) :
    (order.foldl (mapStep none fn values) st).1 = st.1 := by
  induction order generalizing st with
  | nil => rfl
  | cons i rest ih =>
    simp only [List.foldl_cons]
    have hstep : (mapStep none fn values st i).1 = st.1 := by
      unfold mapStep
      cases hv : values[i]? with
      | none => rfl
      | some v => simpa using goStep_fst_of_done none st.1 (mapTaskOutcome fn v) h
    rw [ih _ (by rw [hstep]; exact h), hstep]

/-- Unfolding equation of `firstMapErr` on a nonempty completion order. -/
theorem firstMapErr_cons {U T : Type} (fn : U → Except GoError T)
    (values : List U) (i : Nat) (rest : List Nat) :
    firstMapErr fn values (i :: rest) =
      match values[i]? with
      | none => firstMapErr fn values rest
      | some v =>
        match fn v with
        | Except.error e => some e
        | Except.ok _ => firstMapErr fn values rest := rfl

/-- The tree context after a run of `Map` tasks resolves `Wait` to the
first error in completion order (no limiter, live starting context). -/
theorem mapFold_err {U T : Type} [Inhabited T]
    (fn : U → Except GoError T) (values : List U) (order : List Nat)
    (st : CancelCtx × List T) (h : st.1.err = none) :
    waitErr ((order.foldl (mapStep none fn values) st).1) =
      firstMapErr fn values order := by
  induction order generalizing st with
  | nil => exact waitErr_of_live st.1 h
  | cons i rest ih =>
    simp only [List.foldl_cons]
    rw [firstMapErr_cons]
    cases hv : values[i]? with
    | none =>
      have hstep : mapStep none fn values st i = st := by
        unfold mapStep
        rw [hv]
      rw [hstep, ih st h]
    | some v =>
      cases hf : fn v with
      | ok t =>
        rw [mapStep_none_ok fn values st i v t hv hf]
        rw [ih (st.1, st.2.set i t) h]
        simp only [hf]
      | error e =>
        rw [mapStep_none_err fn values st i v e hv hf]
        have hdone : (st.1.cancel (some e)).err.isSome := by
          rw [cancel_of_live st.1 (some e) h]
          rfl
        have hrest : (rest.foldl (mapStep none fn values)
            (st.1.cancel (some e), st.2)).1 = st.1.cancel (some e) :=
          mapFold_fst_of_done fn values rest _ hdone
        rw [hrest, waitErr_cancel_of_live st.1 (some e) h]
        simp only [hf]
        rfl

/-- Claim C6: `Map` on a scope with no admission limiter and a live signal
returns an output of the same length as the input in which position `i`
holds the image of input `i` whenever its task succeeded and the zero value
whenever its task failed — for every completion order, so output order
matches input order — together with the first task error in completion
order from the wait. -/
theorem map_preserves_input_order {U T : Type} [Inhabited T]
    (fn : U → Except GoError T) (values : List U) (c : CancelCtx)
    (order : List Nat) (hperm : order.Perm (List.range values.length))
    (h : c.err = none) :
    (Map none fn values c order).1.length = values.length ∧
    (∀ (i : Nat) (hi : i < values.length) (t : T),
      fn (values.get ⟨i, hi⟩) = Except.ok t →
      (Map none fn values c order).1[i]? = some t) ∧
    (∀ (i : Nat) (hi : i < values.length) (e : GoError),
      fn (values.get ⟨i, hi⟩) = Except.error e →
      (Map none fn values c order).1[i]? = some default) ∧
    (Map none fn values c order).2 = firstMapErr fn values order := by
  have hnodup : order.Nodup := hperm.nodup_iff.mpr (List.nodup_range _)
  have hmem : ∀ i, i < values.length → i ∈ order := by
    intro i hi
    rw [hperm.mem_iff, List.mem_range]
    exact hi
  have hmap : Map none fn values c order =
      ((order.foldl (mapStep none fn values)
          (c, List.replicate values.length default)).2,
        waitErr ((order.foldl (mapStep none fn values)
          (c, List.replicate values.length default)).1)) := rfl
  rw [hmap]
  refine ⟨?_, ?_, ?_, mapFold_err fn values order _ h⟩
  · rw [mapFold_out_length]
    exact List.length_replicate _ _
  · intro i hi t hf
    have hv : values[i]? = some (values.get ⟨i, hi⟩) := by
      rw [List.getElem?_eq_getElem hi]
      rfl
    obtain ⟨l1, l2, horder⟩ := List.append_of_mem (hmem i hi)
    have hnd := horder ▸ hnodup
    rw [List.nodup_append] at hnd
    have hil1 : i ∉ l1 := fun ha => hnd.2.2 ha (List.mem_cons_self i l2)
    have hil2 : i ∉ l2 := (List.nodup_cons.mp hnd.2.1).1
    rw [horder, List.foldl_append, List.foldl_cons]
    rw [mapStep_none_ok fn values _ i _ t hv hf]
    rw [mapFold_out_slot_notmem none fn values l2 _ i hil2]
    have hlen : ((l1.foldl (mapStep none fn values)
        (c, List.replicate values.length default)).2).length =
        values.length := by
      rw [mapFold_out_length]
      exact List.length_replicate _ _
    exact List.getElem?_set_eq_of_lt t (by rw [hlen]; exact hi)
  · intro i hi e hf
    have hv : values[i]? = some (values.get ⟨i, hi⟩) := by
      rw [List.getElem?_eq_getElem hi]
      rfl
    obtain ⟨l1, l2, horder⟩ := List.append_of_mem (hmem i hi)
    have hnd := horder ▸ hnodup
    rw [List.nodup_append] at hnd
    have hil1 : i ∉ l1 := fun ha => hnd.2.2 ha (List.mem_cons_self i l2)
    have hil2 : i ∉ l2 := (List.nodup_cons.mp hnd.2.1).1
    rw [horder, List.foldl_append, List.foldl_cons]
    rw [mapStep_none_err fn values _ i _ e hv hf]
    rw [mapFold_out_slot_notmem none fn values l2 _ i hil2]
    show ((l1.foldl (mapStep none fn values)
      (c, List.replicate values.length default)).2)[i]? = some default
    rw [mapFold_out_slot_notmem none fn values l1 _ i hil1]
    simp [List.getElem?_replicate, hi]

/-- Witness for C6: inputs `[1, 2, 3]`, a transform that multiplies by ten
but fails on 2, completion order `[2, 0, 1]`: the outputs are positional
(10 at slot 0, the zero value at slot 1, 30 at slot 2) and the wait returns
the single task error. -/
theorem map_preserves_input_order_witness :
    (Map none
      (fun v : Nat =>
        if v = 2 then Except.error (GoError.msg "bad") else Except.ok (v * 10))
      [1, 2, 3] { err := none, cause := none } [2, 0, 1]).1.length =
      [1, 2, 3].length ∧
    (∀ (i : Nat) (hi : i < [1, 2, 3].length) (t : Nat),
      (fun v : Nat =>
        if v = 2 then Except.error (GoError.msg "bad") else Except.ok (v * 10))
          ([1, 2, 3].get ⟨i, hi⟩) = Except.ok t →
      (Map none
        (fun v : Nat =>
          if v = 2 then Except.error (GoError.msg "bad") else Except.ok (v * 10))
        [1, 2, 3] { err := none, cause := none } [2, 0, 1]).1[i]? = some t) ∧
    (∀ (i : Nat) (hi : i < [1, 2, 3].length) (e : GoError),
      (fun v : Nat =>
        if v = 2 then Except.error (GoError.msg "bad") else Except.ok (v * 10))
          ([1, 2, 3].get ⟨i, hi⟩) = Except.error e →
      (Map none
        (fun v : Nat =>
          if v = 2 then Except.error (GoError.msg "bad") else Except.ok (v * 10))
        [1, 2, 3] { err := none, cause := none } [2, 0, 1]).1[i]? =
        some default) ∧
    (Map none
      (fun v : Nat =>
        if v = 2 then Except.error (GoError.msg "bad") else Except.ok (v * 10))
      [1, 2, 3] { err := none, cause := none } [2, 0, 1]).2 =
      firstMapErr
        (fun v : Nat =>
          if v = 2 then Except.error (GoError.msg "bad") else Except.ok (v * 10))
        [1, 2, 3] [2, 0, 1] :=
  map_preserves_input_order
    (fun v : Nat =>
      if v = 2 then Except.error (GoError.msg "bad") else Except.ok (v * 10))
    [1, 2, 3] { err := none, cause := none } [2, 0, 1] (by decide) rfl

/-- The `Schedule` loop exits with error `e` exactly when the first exit
event of the trace carries `e`, for any current delay. -/
theorem scheduleLoop_inl_iff (evs : List SchedEvent) :
    ∀ (d : Nat) (e : GoError),
      scheduleLoop d evs = Sum.inl e ↔ firstExit evs = some e := by
  induction evs with
  | nil =>
    intro d e
    simp [scheduleLoop, firstExit]
  | cons ev rest ih =>
    intro d e
    cases ev with
    | ctxDone ce =>
      simp [scheduleLoop, firstExit]
    | tick next err =>
      cases err with
      | some e0 => simp [scheduleLoop, firstExit]
      | none =>
        show scheduleLoop next rest = Sum.inl e ↔ firstExit rest = some e
        exact ih next e

/-- The `Schedule` loop is still running after a trace exactly when no
event of the trace is an exit event, for any current delay. -/
theorem scheduleLoop_isRight_iff (evs : List SchedEvent) :
    ∀ d : Nat,
      (scheduleLoop d evs).isRight ↔ ∀ ev ∈ evs, isExitEvent ev = false := by
  induction evs with
  | nil =>
    intro d
    simp [scheduleLoop]
  | cons ev rest ih =>
    intro d
    cases ev with
    | ctxDone ce =>
      simp [scheduleLoop, isExitEvent]
    | tick next err =>
      cases err with
      | some e0 => simp [scheduleLoop, isExitEvent]
      | none =>
        show (scheduleLoop next rest).isRight ↔ _
        rw [ih next]
        simp [isExitEvent]

/-- Claim C9: the loop spawned by `Schedule` starts with a zero delay (the
first wait of any trace is zero), exits with exactly the error of the first
trace event that is either the signal firing (yielding the signal error
through the normal spawn error path) or a step returning a non-nil error,
and keeps running whenever no such event occurs — it never exits for any
other reason. -/
theorem schedule_exit_conditions (evs : List SchedEvent) :
    (∀ e : GoError, Schedule evs = Sum.inl e ↔ firstExit evs = some e) ∧
    ((Schedule evs).isRight ↔ ∀ ev ∈ evs, isExitEvent ev = false) ∧
    (∀ (ev : SchedEvent) (rest : List SchedEvent),
      (scheduleDelays 0 (ev :: rest)).head? = some 0) := by
  refine ⟨fun e => scheduleLoop_inl_iff evs 0 e,
    scheduleLoop_isRight_iff evs 0, ?_⟩
  intro ev rest
  cases ev with
  | ctxDone ce => rfl
  | tick next err => cases err with
    | some e0 => rfl
    | none => rfl

/-- Witness for C9 on a concrete trace: two clean steps followed by a step
error, which is what the loop exits with. -/
theorem schedule_exit_conditions_witness :
    (∀ e : GoError,
      Schedule [SchedEvent.tick 5 none, SchedEvent.tick 7 none,
        SchedEvent.tick 2 (some (GoError.msg "step"))] = Sum.inl e ↔
      firstExit [SchedEvent.tick 5 none, SchedEvent.tick 7 none,
        SchedEvent.tick 2 (some (GoError.msg "step"))] = some e) ∧
    ((Schedule [SchedEvent.tick 5 none, SchedEvent.tick 7 none,
        SchedEvent.tick 2 (some (GoError.msg "step"))]).isRight ↔
      ∀ ev ∈ [SchedEvent.tick 5 none, SchedEvent.tick 7 none,
        SchedEvent.tick 2 (some (GoError.msg "step"))],
        isExitEvent ev = false) ∧
    (∀ (ev : SchedEvent) (rest : List SchedEvent),
      (scheduleDelays 0 (ev :: rest)).head? = some 0) :=
  schedule_exit_conditions [SchedEvent.tick 5 none, SchedEvent.tick 7 none,
    SchedEvent.tick 2 (some (GoError.msg "step"))]

/-- Witness for C10 at a live caller context and a function returning
nil. -/
theorem call_nil_result_generic_cause_witness :
    (Call { err := none, cause := none } none).err = some CtxErr.canceled ∧
    (Call { err := none, cause := none } none).cause =
      some (Option.getD none GoError.canceled) ∧
    (Call { err := none, cause := none } none).cause =
      some GoError.canceled ∧
    Call { err := none, cause := none } none =
      (deriveCtx { err := none, cause := none }).cancel none :=
  call_nil_result_generic_cause { err := none, cause := none } none rfl

end Concurrency
